import Mathlib

/-!
Shallow embedding of the Hybrid Retrieval & Reranking Engine of the GeoRAG
backend (`backend/app/services/retriever.py` and the failure behaviour of
`backend/app/services/vector_store.py`), together with proofs of the
specification's testable properties.

Modelling conventions:
- Python floats are modelled as exact rationals (`ℚ`).
- Python exceptions are modelled with `Except String`; a raised exception is
  an `Except.error` carrying the exception class name.
- Python truthiness is modelled explicitly where the source relies on it:
  `None` is falsy, the number `0` is falsy, and a non-empty dict such as
  `{"lat": None, "lon": None}` (produced by `_db_retrieval` for entries with
  no geo record) is truthy.
- `sorted(..., key=lambda x: x["score"], reverse=True)` is a stable sort by
  descending score; it is modelled by `List.insertionSort` on the relation
  `scoreGE` (also a stable sort).
-/

namespace GeoRAG

/-- Geo filter of a query (`GeoFilter` in `app/models/request.py`):
latitude, longitude in degrees and a radius in km. -/
structure GeoFilter where
  lat : ℚ
  lon : ℚ
  radius_km : ℚ
  deriving DecidableEq

/-- Time filter of a query (`TimeFilter` in `app/models/request.py`):
numeric start and end instants.  The source field named `end` is spelled
`end_` here because `end` is a Lean keyword. -/
structure TimeFilter where
  start : ℚ
  end_ : ℚ
  deriving DecidableEq

/-- The `geo_point` payload entry.  The vector path stores `None` for a
document without geo data, while `_db_retrieval` builds the dict
`{"lat": ..., "lon": ...}` whose coordinates are `None` when the entry has
no geo record; so the coordinates themselves are optional. -/
structure GeoPoint where
  lat : Option ℚ
  lon : Option ℚ
  deriving DecidableEq

/-- The candidate payload fields that the merge and rerank stages read.
`geo_point = none` models a Python payload whose `geo_point` is `None`
(falsy), while `geo_point = some gp` models a dict (truthy, even when both
coordinates inside are `None`). -/
structure Payload where
  entry_id : String
  geo_point : Option GeoPoint := none
  start_time : Option ℚ := none
  end_time : Option ℚ := none
  deriving DecidableEq

/-- A retrieval candidate: `{"id": ..., "score": ..., "payload": {...}}`. -/
structure Candidate where
  id : String
  score : ℚ
  payload : Payload
  deriving DecidableEq

/-- The parts of `QueryIntent` (`app/models/request.py`) consumed by the
merge/rerank stages. -/
structure QueryIntent where
  category : Option String := none
  geo_filter : Option GeoFilter := none
  time_filter : Option TimeFilter := none
  deriving DecidableEq

/-- The dictionary key used by `_merge_results`: `res["payload"]["entry_id"]`. -/
def entry_id_of (c : Candidate) : String :=
  c.payload.entry_id

/-- One step of `merged[entry_id] = res` on a Python dict represented as its
insertion-ordered entry list: overwrite in place when the key is present,
append otherwise. -/
def dictInsert (m : List Candidate) (c : Candidate) : List Candidate :=
  if m.any (fun x => entry_id_of x == entry_id_of c) then
    m.map (fun x => if entry_id_of x == entry_id_of c then c else x)
  else
    m ++ [c]

/-- One step of `if entry_id not in merged: merged[entry_id] = res`. -/
def dictInsertIfAbsent (m : List Candidate) (c : Candidate) : List Candidate :=
  if m.any (fun x => entry_id_of x == entry_id_of c) then m
  else m ++ [c]

/-- `HybridRetriever._merge_results`: vector results are inserted first
(keeping their semantic score, later duplicates overwriting earlier ones as
in a Python dict), then database results are inserted only under keys not
already present; the dict's values are returned in insertion order. -/
def merge_results (vector_results db_results : List Candidate) : List Candidate :=
  db_results.foldl dictInsertIfAbsent (vector_results.foldl dictInsert [])

/-- Weight `self.alpha = 0.6` for semantic similarity. -/
def alpha : ℚ := 6 / 10

/-- Weight `self.beta = 0.3` for geographic relevance. -/
def beta : ℚ := 3 / 10

/-- Weight `self.gamma = 0.1` for temporal relevance. -/
def gamma : ℚ := 1 / 10

/-- Semantic sub-score: `res["score"] if res["score"] > 0 else 0.5`. -/
def semanticScoreOf (c : Candidate) : ℚ :=
  if 0 < c.score then c.score else 1 / 2

/-- The simplified per-axis distance of `_rerank`:
`abs(query_lat - res_lat) * 111 + abs(query_lon - res_lon) * 111`. -/
def distance_km (gf : GeoFilter) (res_lat res_lon : ℚ) : ℚ :=
  |gf.lat - res_lat| * 111 + |gf.lon - res_lon| * 111

/-- Linear decay `max(0.0, 1.0 - (distance_km / max_distance))` used for the
geo sub-score. -/
def geoDecay (d max_distance : ℚ) : ℚ :=
  max 0 (1 - d / max_distance)

/-- Geo sub-score of `_rerank`.  The branch is taken when
`query_intent.geo_filter and res["payload"]["geo_point"]` is truthy; inside
it, arithmetic on a `None` coordinate raises `TypeError`, and a zero filter
radius raises `ZeroDivisionError` at the division. -/
def geoScoreOf (qi : QueryIntent) (c : Candidate) : Except String ℚ :=
  match qi.geo_filter, c.payload.geo_point with
  | some gf, some gp =>
    match gp.lat, gp.lon with
    | some res_lat, some res_lon =>
      if gf.radius_km = 0 then .error "ZeroDivisionError"
      else .ok (geoDecay (distance_km gf res_lat res_lon) gf.radius_km)
    | _, _ => .error "TypeError"
  | _, _ => .ok 1

/-- Interval-overlap computation of the time sub-score branch of `_rerank`.
When the query span is empty or reversed the overlap test
`overlap_end <= overlap_start` always fires, so the division is never
reached with a zero denominator. -/
def timeOverlapScore (tf : TimeFilter) (res_start res_end : ℚ) : ℚ :=
  let overlap_start := max tf.start res_start
  let overlap_end := min tf.end_ res_end
  if overlap_end ≤ overlap_start then 0
  else (overlap_end - overlap_start) / (tf.end_ - tf.start)

/-- Time sub-score of `_rerank`.  The branch is guarded by
`query_intent.time_filter and res["payload"]["start_time"] and
res["payload"]["end_time"]`: a timestamp that is `None` or `0` is falsy, so
such candidates keep the neutral score `1.0`. -/
def timeScoreOf (qi : QueryIntent) (c : Candidate) : ℚ :=
  match qi.time_filter with
  | none => 1
  | some tf =>
    match c.payload.start_time, c.payload.end_time with
    | some res_start, some res_end =>
      if res_start ≠ 0 ∧ res_end ≠ 0 then timeOverlapScore tf res_start res_end
      else 1
    | _, _ => 1

/-- Final score of one candidate:
`alpha * semantic_score + beta * geo_score + gamma * time_score`,
propagating an exception raised while computing the geo sub-score. -/
def rerankScore (qi : QueryIntent) (c : Candidate) : Except String ℚ :=
  match geoScoreOf qi c with
  | .error e => .error e
  | .ok geo_score =>
    .ok (alpha * semanticScoreOf c + beta * geo_score + gamma * timeScoreOf qi c)

/-- The per-candidate body of the `for res in results` loop of `_rerank`:
`res["score"] = final_score`. -/
def rerankCandidate (qi : QueryIntent) (c : Candidate) : Except String Candidate :=
  match rerankScore qi c with
  | .error e => .error e
  | .ok s => .ok { c with score := s }

/-- The whole scoring loop of `_rerank`; the first raised exception aborts
the call. -/
def rerankLoop (qi : QueryIntent) : List Candidate → Except String (List Candidate)
  | [] => .ok []
  | c :: rest =>
    match rerankCandidate qi c with
    | .error e => .error e
    | .ok c2 =>
      match rerankLoop qi rest with
      | .error e => .error e
      | .ok rest2 => .ok (c2 :: rest2)

/-- Descending-score comparison used by
`sorted(results, key=lambda x: x["score"], reverse=True)`. -/
def scoreGE (a b : Candidate) : Prop :=
  b.score ≤ a.score

instance : DecidableRel scoreGE :=
  fun a b => inferInstanceAs (Decidable (b.score ≤ a.score))

instance : IsTotal Candidate scoreGE :=
  ⟨fun a b => le_total b.score a.score⟩

instance : IsTrans Candidate scoreGE :=
  ⟨fun _ _ _ h1 h2 => le_trans h2 h1⟩

/-- `HybridRetriever._rerank`: score every candidate in place, then sort by
descending final score (stable sort, as Python's `sorted`). -/
def rerank (results : List Candidate) (qi : QueryIntent) : Except String (List Candidate) :=
  match rerankLoop qi results with
  | .error e => .error e
  | .ok scored => .ok (List.insertionSort scoreGE scored)

/-- `VectorStore.search` guard: `if not self.client: raise
Exception("Qdrant client not connected")`; otherwise the index's scored
results are returned. -/
def vector_store_search (client_connected : Bool) (native_results : List Candidate) :
    Except String (List Candidate) :=
  if client_connected then .ok native_results
  else .error "Qdrant client not connected"

/-- `HybridRetriever.retrieve` downstream of the two gathered sub-retrievals
(each given as its result-or-exception): an exception from either gathered
task propagates; otherwise merge, return `[]` when the merge is empty, else
rerank and truncate to `top_k`. -/
def retrieve (vector_results db_results : Except String (List Candidate))
    (qi : QueryIntent) (top_k : ℕ) : Except String (List Candidate) :=
  match vector_results with
  | .error e => .error e
  | .ok v =>
    match db_results with
    | .error e => .error e
    | .ok d =>
      let merged := merge_results v d
      if merged.isEmpty then .ok []
      else
        match rerank merged qi with
        | .error e => .error e
        | .ok reranked => .ok (reranked.take top_k)

/-- Keys of a merged dict, in insertion order. -/
def entryKeys (l : List Candidate) : List String :=
  l.map entry_id_of

lemma any_key_iff (m : List Candidate) (c : Candidate) :
    (m.any fun x => entry_id_of x == entry_id_of c) = true ↔ entry_id_of c ∈ entryKeys m := by
  rw [List.any_eq_true]
  constructor
  · rintro ⟨x, hx, hbe⟩
    exact List.mem_map.mpr ⟨x, hx, beq_iff_eq.mp hbe⟩
  · rintro h
    obtain ⟨x, hx, hfx⟩ := List.mem_map.mp h
    exact ⟨x, hx, beq_iff_eq.mpr hfx⟩

lemma entryKeys_append (l1 l2 : List Candidate) :
    entryKeys (l1 ++ l2) = entryKeys l1 ++ entryKeys l2 :=
  List.map_append entry_id_of l1 l2

lemma entryKeys_dictInsert (m : List Candidate) (c : Candidate) :
    entryKeys (dictInsert m c) =
      if entry_id_of c ∈ entryKeys m then entryKeys m
      else entryKeys m ++ [entry_id_of c] := by
  unfold dictInsert
  by_cases h : (m.any fun x => entry_id_of x == entry_id_of c) = true
  · rw [if_pos h, if_pos ((any_key_iff m c).mp h)]
    unfold entryKeys
    rw [List.map_map]
    apply List.map_congr_left
    intro a _
    by_cases hk : (entry_id_of a == entry_id_of c) = true
    · simp only [Function.comp_apply, if_pos hk]
      exact (beq_iff_eq.mp hk).symm
    · simp only [Function.comp_apply, if_neg hk]
  · rw [if_neg h, if_neg (fun hc => h ((any_key_iff m c).mpr hc))]
    exact entryKeys_append m [c]

lemma dictInsertIfAbsent_eq (m : List Candidate) (c : Candidate) :
    dictInsertIfAbsent m c =
      if entry_id_of c ∈ entryKeys m then m else m ++ [c] := by
  unfold dictInsertIfAbsent
  by_cases h : (m.any fun x => entry_id_of x == entry_id_of c) = true
  · rw [if_pos h, if_pos ((any_key_iff m c).mp h)]
  · rw [if_neg h, if_neg (fun hc => h ((any_key_iff m c).mpr hc))]

lemma mem_of_mem_dictInsert {m : List Candidate} {c a : Candidate}
    (h : a ∈ dictInsert m c) : a ∈ m ∨ a = c := by
  unfold dictInsert at h
  by_cases hb : (m.any fun x => entry_id_of x == entry_id_of c) = true
  · rw [if_pos hb] at h
    obtain ⟨x, hx, hxa⟩ := List.mem_map.mp h
    by_cases hk : (entry_id_of x == entry_id_of c) = true
    · rw [if_pos hk] at hxa
      exact .inr hxa.symm
    · rw [if_neg hk] at hxa
      exact .inl (hxa ▸ hx)
  · rw [if_neg hb] at h
    rcases List.mem_append.mp h with h | h
    · exact .inl h
    · exact .inr (List.mem_singleton.mp h)

lemma length_dictInsert (m : List Candidate) (c : Candidate) :
    (dictInsert m c).length ≤ m.length + 1 := by
  unfold dictInsert
  split
  · rw [List.length_map]
    omega
  · rw [List.length_append]
    simp

lemma mem_foldl_dictInsert (v : List Candidate) : ∀ (m : List Candidate) (a : Candidate),
    a ∈ v.foldl dictInsert m → a ∈ m ∨ a ∈ v := by
  induction v with
  | nil =>
    intro m a h
    exact .inl h
  | cons x v ih =>
    intro m a h
    rw [List.foldl_cons] at h
    rcases ih (dictInsert m x) a h with h2 | h2
    · rcases mem_of_mem_dictInsert h2 with h3 | h3
      · exact .inl h3
      · exact .inr (h3 ▸ List.mem_cons_self x v)
    · exact .inr (List.mem_cons_of_mem x h2)

lemma length_foldl_dictInsert (v : List Candidate) :
    ∀ m : List Candidate, (v.foldl dictInsert m).length ≤ m.length + v.length := by
  induction v with
  | nil =>
    intro m
    simp
  | cons x v ih =>
    intro m
    rw [List.foldl_cons]
    have h1 := ih (dictInsert m x)
    have h2 := length_dictInsert m x
    simp only [List.length_cons]
    omega

lemma nodup_entryKeys_dictInsert {m : List Candidate} (c : Candidate)
    (h : (entryKeys m).Nodup) : (entryKeys (dictInsert m c)).Nodup := by
  rw [entryKeys_dictInsert]
  by_cases hc : entry_id_of c ∈ entryKeys m
  · rwa [if_pos hc]
  · rw [if_neg hc]
    simp [List.nodup_append, h, hc]

lemma nodup_entryKeys_foldl_dictInsert (v : List Candidate) :
    ∀ m : List Candidate, (entryKeys m).Nodup → (entryKeys (v.foldl dictInsert m)).Nodup := by
  induction v with
  | nil =>
    intro m h
    exact h
  | cons x v ih =>
    intro m h
    rw [List.foldl_cons]
    exact ih (dictInsert m x) (nodup_entryKeys_dictInsert x h)

lemma subset_entryKeys_dictInsert (m : List Candidate) (c : Candidate) :
    entryKeys m ⊆ entryKeys (dictInsert m c) := by
  rw [entryKeys_dictInsert]
  by_cases hc : entry_id_of c ∈ entryKeys m
  · rw [if_pos hc]
    exact fun k hk => hk
  · rw [if_neg hc]
    exact fun k hk => List.mem_append_left _ hk

lemma key_mem_entryKeys_dictInsert (m : List Candidate) (c : Candidate) :
    entry_id_of c ∈ entryKeys (dictInsert m c) := by
  rw [entryKeys_dictInsert]
  by_cases hc : entry_id_of c ∈ entryKeys m
  · rwa [if_pos hc]
  · rw [if_neg hc]
    exact List.mem_append_right _ (List.mem_singleton_self _)

lemma subset_entryKeys_foldl_dictInsert (v : List Candidate) :
    ∀ m : List Candidate, entryKeys m ⊆ entryKeys (v.foldl dictInsert m) := by
  induction v with
  | nil =>
    intro m k hk
    exact hk
  | cons x v ih =>
    intro m k hk
    rw [List.foldl_cons]
    exact ih (dictInsert m x) (subset_entryKeys_dictInsert m x hk)

lemma mem_entryKeys_foldl_dictInsert (v : List Candidate) :
    ∀ (m : List Candidate) (x : Candidate), x ∈ v →
      entry_id_of x ∈ entryKeys (v.foldl dictInsert m) := by
  induction v with
  | nil =>
    intro m x h
    exact absurd h (List.not_mem_nil x)
  | cons y v ih =>
    intro m x h
    rw [List.foldl_cons]
    rcases List.mem_cons.mp h with rfl | h2
    · exact subset_entryKeys_foldl_dictInsert v (dictInsert m x)
        (key_mem_entryKeys_dictInsert m x)
    · exact ih (dictInsert m y) x h2

lemma foldl_dictInsertIfAbsent_decomp (s : List Candidate) : ∀ m : List Candidate,
    ∃ extra, s.foldl dictInsertIfAbsent m = m ++ extra
      ∧ extra.Sublist s
      ∧ (∀ a ∈ extra, entry_id_of a ∉ entryKeys m)
      ∧ ((entryKeys m).Nodup → (entryKeys (m ++ extra)).Nodup) := by
  induction s with
  | nil =>
    intro m
    exact ⟨[], by simp, List.nil_sublist _, fun a ha => absurd ha (List.not_mem_nil a),
      fun h => by simpa using h⟩
  | cons x s ih =>
    intro m
    rw [List.foldl_cons]
    by_cases hx : entry_id_of x ∈ entryKeys m
    · have hd : dictInsertIfAbsent m x = m := by
        rw [dictInsertIfAbsent_eq, if_pos hx]
      rw [hd]
      obtain ⟨extra, he, hsub, hkeys, hnd⟩ := ih m
      exact ⟨extra, he, hsub.cons x, hkeys, hnd⟩
    · have hd : dictInsertIfAbsent m x = m ++ [x] := by
        rw [dictInsertIfAbsent_eq, if_neg hx]
      rw [hd]
      obtain ⟨extra, he, hsub, hkeys, hnd⟩ := ih (m ++ [x])
      refine ⟨x :: extra, ?_, hsub.cons₂ x, ?_, ?_⟩
      · rw [he, List.append_assoc]
        rfl
      · intro a ha
        rcases List.mem_cons.mp ha with rfl | ha2
        · exact hx
        · intro hmem
          exact hkeys a ha2 (by rw [entryKeys_append]; exact List.mem_append_left _ hmem)
      · intro hmn
        have h1 : (entryKeys (m ++ [x])).Nodup := by
          rw [entryKeys_append, List.nodup_append]
          refine ⟨hmn, List.nodup_singleton _, ?_⟩
          intro k hk hk2
          have hkx : k = entry_id_of x := by simpa [entryKeys] using hk2
          exact hx (hkx ▸ hk)
        have h2 := hnd h1
        rw [show m ++ x :: extra = (m ++ [x]) ++ extra from by rw [List.append_assoc]; rfl]
        exact h2

/-- C4: for all vector and structured result lists, the output of
`_merge_results` has pairwise-distinct entry ids and its size is at most
the sum of the input sizes; and an entry whose id occurs in both inputs is
a vector result (its score is the vector result's score; a structured
result never overwrites a vector-sourced entry). -/
theorem claim_C4_merge_properties (v s : List Candidate) :
    (entryKeys (merge_results v s)).Nodup
    ∧ (merge_results v s).length ≤ v.length + s.length
    ∧ ∀ id : String, id ∈ entryKeys v → id ∈ entryKeys s →
        ∀ c ∈ merge_results v s, entry_id_of c = id →
          c ∈ v ∧ ∃ cv ∈ v, entry_id_of cv = id ∧ cv.score = c.score := by
  obtain ⟨extra, he, hsub, hkeys, hnd⟩ := foldl_dictInsertIfAbsent_decomp s (v.foldl dictInsert [])
  have hmr : merge_results v s = v.foldl dictInsert [] ++ extra := he
  have hvnodup : (entryKeys (v.foldl dictInsert [])).Nodup :=
    nodup_entryKeys_foldl_dictInsert v [] (by simp [entryKeys])
  refine ⟨?_, ?_, ?_⟩
  · rw [hmr]
    exact hnd hvnodup
  · rw [hmr, List.length_append]
    have h1 := length_foldl_dictInsert v []
    have h2 := hsub.length_le
    simp only [List.length_nil, Nat.zero_add] at h1
    omega
  · intro id hv _hs c hc hcid
    have hidv : id ∈ entryKeys (v.foldl dictInsert []) := by
      obtain ⟨cv, hcv, hcvid⟩ := List.mem_map.mp hv
      exact hcvid ▸ mem_entryKeys_foldl_dictInsert v [] cv hcv
    have hcv2 : c ∈ v := by
      rw [hmr] at hc
      rcases List.mem_append.mp hc with h1 | h1
      · rcases mem_foldl_dictInsert v [] c h1 with h2 | h2
        · exact absurd h2 (List.not_mem_nil c)
        · exact h2
      · exact ((hkeys c h1) (by rw [hcid]; exact hidv)).elim
    exact ⟨hcv2, c, hcv2, hcid, rfl⟩

/-- Vector-path candidate used in concrete instantiations: semantic score
`0.8`, no geo point, no timestamps. -/
def candA : Candidate :=
  { id := "a", score := 4 / 5, payload := { entry_id := "a" } }

/-- Structured-path candidate used in concrete instantiations: nominal score
`0`, no geo point, no timestamps. -/
def candB : Candidate :=
  { id := "b", score := 0, payload := { entry_id := "b" } }

/-- Structured-path duplicate of `candA` under the same entry id. -/
def candA0 : Candidate :=
  { id := "a", score := 0, payload := { entry_id := "a" } }

theorem claim_C4_merge_properties_witness :
    (entryKeys (merge_results [candA] [candA0, candB])).Nodup
    ∧ (merge_results [candA] [candA0, candB]).length
        ≤ ([candA] : List Candidate).length + ([candA0, candB] : List Candidate).length
    ∧ candA ∈ ([candA] : List Candidate)
    ∧ ∃ cv ∈ ([candA] : List Candidate), entry_id_of cv = "a" ∧ cv.score = candA.score :=
  ⟨(claim_C4_merge_properties [candA] [candA0, candB]).1,
    (claim_C4_merge_properties [candA] [candA0, candB]).2.1,
    ((claim_C4_merge_properties [candA] [candA0, candB]).2.2 "a"
      (by simp [entryKeys, entry_id_of, candA])
      (by simp [entryKeys, entry_id_of, candA0, candB])
      candA
      (by simp [merge_results, dictInsert, dictInsertIfAbsent, entry_id_of, candA, candA0, candB])
      rfl).1,
    ((claim_C4_merge_properties [candA] [candA0, candB]).2.2 "a"
      (by simp [entryKeys, entry_id_of, candA])
      (by simp [entryKeys, entry_id_of, candA0, candB])
      candA
      (by simp [merge_results, dictInsert, dictInsertIfAbsent, entry_id_of, candA, candA0, candB])
      rfl).2⟩

/-- C1: the final score written by `_rerank` into `candidate.score` is
`0.6 * semantic + 0.3 * geo + 0.1 * time`, where the semantic sub-score is
the incoming score when positive and the neutral default `0.5` otherwise;
and whenever all three sub-scores lie in `[0, 1]`, so does the final
score. -/
theorem claim_C1_final_score (qi : QueryIntent) (c c2 : Candidate) (g : ℚ)
    (h : rerankCandidate qi c = .ok c2) (hg : geoScoreOf qi c = .ok g) :
    c2.score = alpha * (if 0 < c.score then c.score else 1 / 2)
        + beta * g + gamma * timeScoreOf qi c
    ∧ ((0 ≤ semanticScoreOf c ∧ semanticScoreOf c ≤ 1) → (0 ≤ g ∧ g ≤ 1) →
        (0 ≤ timeScoreOf qi c ∧ timeScoreOf qi c ≤ 1) →
        0 ≤ c2.score ∧ c2.score ≤ 1) := by
  have hsc : rerankScore qi c
      = .ok (alpha * semanticScoreOf c + beta * g + gamma * timeScoreOf qi c) := by
    rw [rerankScore, hg]
  have hc2 : c2 = { c with
      score := alpha * semanticScoreOf c + beta * g + gamma * timeScoreOf qi c } := by
    rw [rerankCandidate, hsc] at h
    exact (Except.ok.inj h).symm
  subst hc2
  constructor
  · rfl
  · rintro ⟨hs0, hs1⟩ ⟨hg0, hg1⟩ ⟨ht0, ht1⟩
    simp only [alpha, beta, gamma]
    constructor <;> nlinarith [hs0, hs1, hg0, hg1, ht0, ht1]

theorem claim_C1_final_score_witness :
    ({ candA with score := 22 / 25 } : Candidate).score
      = alpha * (if 0 < candA.score then candA.score else 1 / 2)
        + beta * 1 + gamma * timeScoreOf {} candA
    ∧ 0 ≤ ({ candA with score := 22 / 25 } : Candidate).score
    ∧ ({ candA with score := 22 / 25 } : Candidate).score ≤ 1 :=
  ⟨(claim_C1_final_score {} candA { candA with score := 22 / 25 } 1
      (by norm_num [rerankCandidate, rerankScore, geoScoreOf, timeScoreOf, semanticScoreOf,
        alpha, beta, gamma, candA]) rfl).1,
    (claim_C1_final_score {} candA { candA with score := 22 / 25 } 1
      (by norm_num [rerankCandidate, rerankScore, geoScoreOf, timeScoreOf, semanticScoreOf,
        alpha, beta, gamma, candA]) rfl).2
      (by norm_num [semanticScoreOf, candA]) (by norm_num)
      (by norm_num [timeScoreOf, candA])⟩

/-- C2: for a candidate with concrete coordinates and a geo-filtered query
with positive radius, the geo sub-score is `max(0, 1 - distance/radiusKm)`
with the per-axis degree difference times 111 km summed over the two axes;
distance `0` gives `1`, distance at least the radius gives `0`, and the
decay is monotonically non-increasing in the distance. -/
theorem claim_C2_geo_subscore (qi : QueryIntent) (c : Candidate) (gf : GeoFilter)
    (gp : GeoPoint) (res_lat res_lon d1 d2 d3 : ℚ)
    (hgf : qi.geo_filter = some gf) (hgp : c.payload.geo_point = some gp)
    (hlat : gp.lat = some res_lat) (hlon : gp.lon = some res_lon)
    (hr : 0 < gf.radius_km) (hd1 : gf.radius_km ≤ d1) (hd23 : d2 ≤ d3) :
    geoScoreOf qi c = .ok (geoDecay (distance_km gf res_lat res_lon) gf.radius_km)
    ∧ geoDecay (distance_km gf res_lat res_lon) gf.radius_km
        = max 0 (1 - distance_km gf res_lat res_lon / gf.radius_km)
    ∧ geoDecay 0 gf.radius_km = 1
    ∧ geoDecay d1 gf.radius_km = 0
    ∧ geoDecay d3 gf.radius_km ≤ geoDecay d2 gf.radius_km := by
  refine ⟨?_, rfl, ?_, ?_, ?_⟩
  · simp only [geoScoreOf, hgf, hgp, hlat, hlon]
    rw [if_neg (ne_of_gt hr)]
  · simp [geoDecay]
  · have h1 : 1 ≤ d1 / gf.radius_km := (one_le_div hr).mpr hd1
    unfold geoDecay
    exact max_eq_left (by linarith)
  · unfold geoDecay
    have hdiv : d2 / gf.radius_km ≤ d3 / gf.radius_km := by
      rw [div_eq_mul_inv, div_eq_mul_inv]
      exact mul_le_mul_of_nonneg_right hd23 (by positivity)
    exact max_le_max le_rfl (by linarith)

/-- Query intent with a geo filter centred at `(39, 116)` with a 10 km
radius. -/
def geoQueryIntent : QueryIntent :=
  { geo_filter := some { lat := 39, lon := 116, radius_km := 10 } }

/-- Candidate located exactly at the centre of `geoQueryIntent`. -/
def candCenter : Candidate :=
  { id := "g", score := 1 / 2,
    payload := { entry_id := "g", geo_point := some { lat := some 39, lon := some 116 } } }

theorem claim_C2_geo_subscore_witness :
    geoScoreOf geoQueryIntent candCenter
      = .ok (geoDecay (distance_km { lat := 39, lon := 116, radius_km := 10 } 39 116) 10)
    ∧ geoDecay (distance_km { lat := 39, lon := 116, radius_km := 10 } 39 116) 10
        = max 0 (1 - distance_km { lat := 39, lon := 116, radius_km := 10 } 39 116 / 10)
    ∧ geoDecay 0 10 = 1
    ∧ geoDecay 12 10 = 0
    ∧ geoDecay 5 10 ≤ geoDecay 3 10 :=
  claim_C2_geo_subscore geoQueryIntent candCenter
    { lat := 39, lon := 116, radius_km := 10 } { lat := some 39, lon := some 116 }
    39 116 12 3 5 rfl rfl rfl rfl (by norm_num) (by norm_num) (by norm_num)

/-- C3: for a candidate with nonzero (hence truthy) start and end
timestamps and a time-filtered query, the time sub-score is `0` when the
intervals do not properly overlap and otherwise equals the overlap duration
divided by the query span. -/
theorem claim_C3_time_subscore (qi : QueryIntent) (c : Candidate) (tf : TimeFilter)
    (res_start res_end : ℚ)
    (htf : qi.time_filter = some tf) (hst : c.payload.start_time = some res_start)
    (het : c.payload.end_time = some res_end)
    (hs0 : res_start ≠ 0) (he0 : res_end ≠ 0) (_hq : tf.start ≤ tf.end_) :
    timeScoreOf qi c =
      if min tf.end_ res_end ≤ max tf.start res_start then 0
      else (min tf.end_ res_end - max tf.start res_start) / (tf.end_ - tf.start) := by
  simp only [timeScoreOf, htf, hst, het]
  rw [if_pos ⟨hs0, he0⟩]
  rfl

/-- Query intent with the time filter `[1500, 1700]`. -/
def timeQueryIntent : QueryIntent :=
  { time_filter := some { start := 1500, end_ := 1700 } }

/-- Candidate with the time interval `[1368, 1644]` (the Ming-dynasty
scenario of the specification). -/
def candMing : Candidate :=
  { id := "t", score := 1 / 2,
    payload := { entry_id := "t", start_time := some 1368, end_time := some 1644 } }

theorem claim_C3_time_subscore_witness :
    timeScoreOf timeQueryIntent candMing = 72 / 100 :=
  (claim_C3_time_subscore timeQueryIntent candMing
      { start := 1500, end_ := 1700 } 1368 1644 rfl rfl rfl
      (by norm_num) (by norm_num) (by norm_num)).trans
    (by rw [if_neg (by norm_num)]; norm_num)

/-- C10: a candidate whose `start_time` or `end_time` is absent or equal to
`0` (falsy in Python) keeps the neutral time sub-score `1.0` even when the
query carries a time filter, exactly as if it had no temporal data. -/
theorem claim_C10_zero_timestamp_neutral (qi : QueryIntent) (c : Candidate)
    (tf : TimeFilter) (htf : qi.time_filter = some tf)
    (h : c.payload.start_time = none ∨ c.payload.start_time = some 0 ∨
         c.payload.end_time = none ∨ c.payload.end_time = some 0) :
    timeScoreOf qi c = 1 := by
  rcases h with h | h | h | h <;>
    cases hst : c.payload.start_time <;> cases het : c.payload.end_time <;>
      simp_all [timeScoreOf, htf]

/-- Candidate whose interval starts exactly at the Unix epoch. -/
def candEpoch : Candidate :=
  { id := "z", score := 0,
    payload := { entry_id := "z", start_time := some 0, end_time := some 5 } }

theorem claim_C10_zero_timestamp_neutral_witness :
    timeScoreOf timeQueryIntent candEpoch = 1 :=
  claim_C10_zero_timestamp_neutral timeQueryIntent candEpoch
    { start := 1500, end_ := 1700 } rfl (Or.inr (Or.inl rfl))

/-- C5: every successful `_rerank` output is sorted non-increasingly by
final score (adjacent pairs satisfy `a.score ≥ b.score`), and `_rerank` is
deterministic: identical inputs produce the identical output sequence. -/
theorem claim_C5_rerank_sorted (results results2 : List Candidate) (qi qi2 : QueryIntent)
    (out : List Candidate) (h : rerank results qi = .ok out)
    (hr : results2 = results) (hq : qi2 = qi) :
    out.Chain' scoreGE ∧ rerank results2 qi2 = .ok out := by
  subst hr
  subst hq
  refine ⟨?_, h⟩
  rw [rerank] at h
  split at h
  · cases h
  · cases h
    exact (List.sorted_insertionSort scoreGE _).chain'

theorem claim_C5_rerank_sorted_witness :
    ([{ candA with score := 22 / 25 }, { candB with score := 7 / 10 }] : List Candidate).Chain' scoreGE
    ∧ rerank [candB, candA] {}
        = .ok [{ candA with score := 22 / 25 }, { candB with score := 7 / 10 }] :=
  claim_C5_rerank_sorted [candB, candA] [candB, candA] {} {}
    [{ candA with score := 22 / 25 }, { candB with score := 7 / 10 }]
    (by norm_num [rerank, rerankLoop, rerankCandidate, rerankScore, geoScoreOf, timeScoreOf,
      semanticScoreOf, alpha, beta, gamma, candA, candB,
      List.insertionSort, List.orderedInsert, scoreGE])
    rfl rfl

/-- C6: the specification requires the neutral geo sub-score `1.0` for every
candidate without a geo point, including structured-store candidates with no
associated geo record.  The code honours this only for a `None` geo payload
(vector path, first conjunct) and for queries without a geo filter (second
conjunct); a structured-store candidate formatted with
`geo_point = {"lat": None, "lon": None}` meets a geo-filtered query in the
truthy branch and raises `TypeError` on `abs(query_lat - None)` instead of
scoring `1.0` (third conjunct). -/
theorem claim_C6_db_no_geo_typeerror :
    geoScoreOf geoQueryIntent
      { id := "e2", score := 9 / 10, payload := { entry_id := "e2", geo_point := none } } = .ok 1
    ∧ geoScoreOf { geoQueryIntent with geo_filter := none }
        { id := "e1", score := 0,
          payload := { entry_id := "e1", geo_point := some { lat := none, lon := none } } } = .ok 1
    ∧ geoScoreOf geoQueryIntent
        { id := "e1", score := 0,
          payload := { entry_id := "e1", geo_point := some { lat := none, lon := none } } }
        = .error "TypeError" :=
  ⟨rfl, rfl, rfl⟩

/-- Structured-store candidate formatted by `_db_retrieval` for an entry
with no geo record: the payload carries the truthy dict
`{"lat": None, "lon": None}`. -/
def dbNoGeoCandidate : Candidate :=
  { id := "d1", score := 0,
    payload := { entry_id := "d1", geo_point := some { lat := none, lon := none } } }

/-- C7: the specification requires `_merge_results` and `_rerank` never to
fail.  Merging is total (first conjunct evaluates it), but `_rerank` raises
`TypeError` on a structured-store candidate whose geo record is absent when
the intent has a geo filter, and `retrieve` propagates that exception
(third conjunct). -/
theorem claim_C7_rerank_not_total :
    merge_results [] [dbNoGeoCandidate] = [dbNoGeoCandidate]
    ∧ rerank [dbNoGeoCandidate] geoQueryIntent = .error "TypeError"
    ∧ retrieve (.ok []) (.ok [dbNoGeoCandidate]) geoQueryIntent 10 = .error "TypeError" :=
  ⟨rfl, rfl, rfl⟩

/-- C8: a successful `retrieve` returns at most `top_k` candidates, and its
output is exactly the first `top_k` entries of the reranked sequence — in
particular, when the reranked sequence has at most `top_k` entries the
output is that whole sequence, with no padding (so no entry below `top_k`
is dropped); when the merge of the two sub-retrievals is empty the output
is empty; and two empty sub-retrievals always yield `ok []` rather than an
error. -/
theorem claim_C8_retrieve_topk (v d : List Candidate) (qi : QueryIntent)
    (top_k : ℕ) (out : List Candidate)
    (h : retrieve (.ok v) (.ok d) qi top_k = .ok out) :
    out.length ≤ top_k
    ∧ (merge_results v d = [] ∧ out = []
       ∨ ∃ reranked, rerank (merge_results v d) qi = .ok reranked
           ∧ out = reranked.take top_k
           ∧ (reranked.length ≤ top_k → out = reranked))
    ∧ retrieve (.ok []) (.ok ([] : List Candidate)) qi top_k = .ok [] := by
  simp only [retrieve] at h
  split at h
  · rename_i hemp
    cases h
    exact ⟨Nat.zero_le _, .inl ⟨List.isEmpty_iff.mp hemp, rfl⟩, rfl⟩
  · split at h
    · cases h
    · rename_i reranked hr
      cases h
      refine ⟨?_, .inr ⟨reranked, hr, rfl, fun hlen => List.take_of_length_le hlen⟩, rfl⟩
      rw [List.length_take]
      exact min_le_left _ _

theorem claim_C8_retrieve_topk_witness :
    ([{ candB with score := 7 / 10 }] : List Candidate).length ≤ 5
    ∧ (merge_results [candB] [] = [] ∧ ([{ candB with score := 7 / 10 }] : List Candidate) = []
       ∨ ∃ reranked, rerank (merge_results [candB] []) {} = .ok reranked
           ∧ ([{ candB with score := 7 / 10 }] : List Candidate) = reranked.take 5
           ∧ (reranked.length ≤ 5 → ([{ candB with score := 7 / 10 }] : List Candidate) = reranked))
    ∧ retrieve (.ok []) (.ok ([] : List Candidate)) {} 5 = .ok [] :=
  claim_C8_retrieve_topk [candB] [] {} 5 [{ candB with score := 7 / 10 }]
    (by norm_num [retrieve, merge_results, dictInsert, dictInsertIfAbsent, entry_id_of,
      rerank, rerankLoop, rerankCandidate, rerankScore, geoScoreOf, timeScoreOf,
      semanticScoreOf, alpha, beta, gamma, candB,
      List.insertionSort, List.orderedInsert, scoreGE])

/-- C9: a failed sub-retrieval fails the whole `retrieve` call.
`VectorStore.search` raises when the index client is not connected, and
`retrieve` propagates an exception from either gathered sub-retrieval
instead of substituting an empty result list, so a failure is always an
`error`, never `ok []`. -/
theorem claim_C9_failure_propagates (e : String) (db_results : Except String (List Candidate))
    (v native_results : List Candidate) (qi : QueryIntent) (top_k : ℕ) :
    vector_store_search false native_results = .error "Qdrant client not connected"
    ∧ retrieve (.error e) db_results qi top_k = .error e
    ∧ retrieve (.ok v) (.error e) qi top_k = .error e :=
  ⟨rfl, rfl, rfl⟩

end GeoRAG
